import Mathlib

/-!
Shallow embedding of `src/script.py` (a source-to-destination bridge relayer).

Python integers are modelled as `Int` where subtraction occurs (block heights)
and as `Nat` for the non-negative event fields (`nonce`, `amount`, `logIndex`).
The Python `set` `processed_nonces` is modelled as a `List Nat` with
idempotent insertion (`List.insert`).  Network interaction — `get_latest_block`,
`get_logs`, and the destination-chain build/sign/simulate block inside
`process_event` — is modelled by explicit oracles passed in as functions, and a
raised Python exception is an `Except.error` / error constructor of the oracle.
Unbounded `while` loops are run on explicit fuel; `none` means the loop is
still running after that much fuel.
-/

namespace Script

/-- The decoded `event["args"]` of a `TokensLocked` log. -/
structure EventArgs where
  nonce : Nat
  recipient : String
  amount : Nat
deriving DecidableEq, Repr

/-- A log record as consumed by the relayer.  `args = none` models a malformed
record whose `event["args"][...]` access raises inside `process_event`. -/
structure LogReceipt where
  blockNumber : Int
  logIndex : Nat
  args : Option EventArgs
deriving DecidableEq, Repr

/-- Relayer state: `self.processed_nonces` (a Python set) and
`self.last_processed_block`. -/
structure RelayerState where
  processed_nonces : List Nat
  last_processed_block : Int
deriving DecidableEq, Repr

/-- A completed destination-chain submission (the build/sign/simulated-send
block of `process_event` reaching its "[SIMULATION] Sent" line). -/
structure SubmitCall where
  recipient : String
  amount : Nat
  nonce : Nat
deriving DecidableEq, Repr

/-- Outcome of one `event_filter.get_logs(fromBlock=start, toBlock=end)` call.
Both error constructors are caught by the same bare `except Exception` in
`scan_blocks`; they are distinguished here only so the spec's
transient/fatal classification can be stated. -/
inductive FetchOutcome where
  | ok (logs : List LogReceipt)
  | transientErr (msg : String)
  | fatalErr (msg : String)
deriving DecidableEq, Repr

/-- One `get_logs` query issued by the scan loop: the chunk bounds and how many
seconds the loop slept afterwards (0 on success, 10 in the `except` branch). -/
structure ScanQuery where
  lo : Int
  hi : Int
  slept : Nat
deriving DecidableEq, Repr

namespace EventScanner

/-- The `while start <= to_block` loop of `EventScanner.scan_blocks`.
`fetch k lo hi` is the outcome of the `get_logs` call at loop iteration `k`;
on any exception the loop sleeps 10 seconds and retries the same chunk
(`start` is only advanced in the `try` body, after a successful fetch).
Runs on fuel: result `none` means the loop has not finished within `fuel`
iterations.  Also returns the list of queries issued. -/
def scan_loop (fetch : Nat → Int → Int → FetchOutcome) (to_block max_range : Int) :
    Nat → Nat → Int → List LogReceipt → Option (List LogReceipt) × List ScanQuery
  | 0, _, start, acc => (if start > to_block then some acc else none, [])
  | fuel+1, k, start, acc =>
    if start > to_block then (some acc, [])
    else
      let stop := min (start + max_range - 1) to_block
      match fetch k start stop with
      | FetchOutcome.ok logs =>
        let r := scan_loop fetch to_block max_range fuel (k+1) (stop+1) (acc ++ logs)
        (r.1, ⟨start, stop, 0⟩ :: r.2)
      | FetchOutcome.transientErr _ =>
        let r := scan_loop fetch to_block max_range fuel (k+1) start acc
        (r.1, ⟨start, stop, 10⟩ :: r.2)
      | FetchOutcome.fatalErr _ =>
        let r := scan_loop fetch to_block max_range fuel (k+1) start acc
        (r.1, ⟨start, stop, 10⟩ :: r.2)

/-- Default of the `max_range` parameter of `scan_blocks`. -/
def max_range_default : Int := 1000

/-- `EventScanner.scan_blocks`: early `return []` when `from_block > to_block`,
otherwise the chunked scan loop starting at `from_block` with an empty
accumulator. -/
def scan_blocks (fetch : Nat → Int → Int → FetchOutcome)
    (from_block to_block max_range : Int) (fuel : Nat) :
    Option (List LogReceipt) × List ScanQuery :=
  if from_block > to_block then (some [], [])
  else scan_loop fetch to_block max_range fuel 0 from_block []

end EventScanner

/-- The sort key of `events.sort(key=lambda e: (e.blockNumber, e.logIndex))`:
Python tuple comparison, i.e. the lexicographic order. -/
def eventLe (a b : LogReceipt) : Prop :=
  a.blockNumber < b.blockNumber ∨ (a.blockNumber = b.blockNumber ∧ a.logIndex ≤ b.logIndex)

instance : DecidableRel eventLe := fun a b => by
  unfold eventLe; exact inferInstance

instance : IsTotal LogReceipt eventLe := ⟨by intro a b; unfold eventLe; omega⟩

instance : IsTrans LogReceipt eventLe := ⟨by intro a b c; unfold eventLe; omega⟩

/-- Strict lexicographic order on `(blockNumber, logIndex)`. -/
def eventLt (a b : LogReceipt) : Prop :=
  a.blockNumber < b.blockNumber ∨ (a.blockNumber = b.blockNumber ∧ a.logIndex < b.logIndex)

instance : DecidableRel eventLt := fun a b => by
  unfold eventLt; exact inferInstance

/-- The ORDERING step, `events.sort(key=lambda e: (e.blockNumber, e.logIndex))`:
a stable ascending sort by the key.  Python's stable sort and this insertion
sort compute the same list for any input (stable sorts over a total preorder
are unique). -/
def order_events (events : List LogReceipt) : List LogReceipt :=
  events.insertionSort eventLe

namespace BridgeRelayer

/-- Outcome of the destination-chain block of `process_event` (lines building,
signing and simulating the `mintTokens` transaction): either it completes, or
some step raises an exception with a message. -/
def TxSim : Type := EventArgs → Except String Unit

/-- The `try` body of `BridgeRelayer.process_event`: extract `args` (a missing
field raises), skip if the nonce was already processed, otherwise run the
destination-chain simulation and on success record the nonce and the
completed submission. -/
def process_event_body (txSim : TxSim) (st : RelayerState) (event : LogReceipt) :
    Except String (RelayerState × List SubmitCall) :=
  match event.args with
  | none => Except.error "KeyError"
  | some a =>
    if a.nonce ∈ st.processed_nonces then
      Except.ok (st, [])
    else
      match txSim a with
      | Except.error e => Except.error e
      | Except.ok _ =>
        Except.ok ({ st with processed_nonces := st.processed_nonces.insert a.nonce },
          [⟨a.recipient, a.amount, a.nonce⟩])

/-- `BridgeRelayer.process_event`: the whole body is wrapped in
`try ... except Exception: log and return`, so every failure is swallowed and
the caller always gets a normal return with the state unchanged. -/
def process_event (txSim : TxSim) (st : RelayerState) (event : LogReceipt) :
    RelayerState × List SubmitCall :=
  match process_event_body txSim st event with
  | Except.error _ => (st, [])
  | Except.ok r => r

/-- The `for event in events: self.process_event(event)` loop of the run
cycle, threading the state and collecting the completed submissions. -/
def action_events (txSim : TxSim) (st : RelayerState) (events : List LogReceipt) :
    RelayerState × List SubmitCall :=
  events.foldl
    (fun p e =>
      let r := process_event txSim p.1 e
      (r.1, p.2 ++ r.2))
    (st, [])

/-- `self.reorg_safety_margin = 5` in `BridgeRelayer.__init__`. -/
def reorg_safety_margin : Int := 5

/-- An exception reaching the main loop's `try`: `ConnectionError` is caught
by the first `except` clause (error log, 60 second sleep), anything else by
the bare `except Exception` clause (critical log, 30 second sleep). -/
inductive LoopErr where
  | conn (msg : String)
  | other (msg : String)
deriving DecidableEq, Repr

/-- The external world seen by one iteration of `BridgeRelayer.run`:
the outcome of `get_latest_block`, the `get_logs` oracle, and the
destination-chain simulation oracle. -/
structure CycleEnv where
  latest_block : Except LoopErr Int
  fetch : Nat → Int → Int → FetchOutcome
  txSim : TxSim

/-- Observable outcome of one iteration of the `while True` loop of
`BridgeRelayer.run`:
the watermark path (`advanced`, carrying the sorted event list, the completed
submissions and the poll-interval sleep), the no-new-blocks path, an
unfinished scan (fuel ran out inside `scan_blocks`), or one of the two
`except` clauses.  `logLevel` records the Python logging level used by the
branch (40 = ERROR, 50 = CRITICAL). -/
inductive CycleResult where
  | advanced (to_block : Int) (ordered : List LogReceipt)
      (calls : List SubmitCall) (sleptSeconds : Int)
  | noNewBlocks (sleptSeconds : Int)
  | scanIncomplete
  | connBackoff (sleptSeconds : Int)
  | unexpectedBackoff (sleptSeconds : Int)
deriving DecidableEq, Repr

/-- Python logging level of the log line emitted by an `except` branch of the
main loop, if any (`logging.error` = 40, `logging.critical` = 50). -/
def logLevel : CycleResult → Option Nat
  | CycleResult.connBackoff _ => some 40
  | CycleResult.unexpectedBackoff _ => some 50
  | _ => none

/-- One iteration of the `while True` loop of `BridgeRelayer.run`: read the
head, subtract the reorg margin, scan `[last_processed_block+1, to_block]`
when the window is non-empty, sort, process every event, then
unconditionally set `last_processed_block = to_block`; exceptions from
`get_latest_block` fall to the `except` clauses. -/
def run_cycle (env : CycleEnv) (fuel : Nat) (poll_interval : Int)
    (st : RelayerState) : RelayerState × CycleResult :=
  match env.latest_block with
  | Except.error (LoopErr.conn _) => (st, CycleResult.connBackoff 60)
  | Except.error (LoopErr.other _) => (st, CycleResult.unexpectedBackoff 30)
  | Except.ok latest =>
    let to_block := latest - reorg_safety_margin
    if to_block > st.last_processed_block then
      match (EventScanner.scan_blocks env.fetch (st.last_processed_block + 1) to_block
          EventScanner.max_range_default fuel).1 with
      | none => (st, CycleResult.scanIncomplete)
      | some events =>
        let ordered := order_events events
        let r := action_events env.txSim st ordered
        ({ r.1 with last_processed_block := to_block },
         CycleResult.advanced to_block ordered r.2 poll_interval)
    else (st, CycleResult.noNewBlocks poll_interval)

/-- `n` iterations of the `while True` loop; `envs k` is the world seen by
iteration `k`.  The loop body has no `break` or `return`: every iteration
runs regardless of the previous iteration's outcome. -/
def run_loop (envs : Nat → CycleEnv) (fuel : Nat) (poll_interval : Int) :
    Nat → RelayerState → RelayerState × List CycleResult
  | 0, st => (st, [])
  | n+1, st =>
    let r := run_cycle (envs 0) fuel poll_interval st
    let rest := run_loop (fun k => envs (k+1)) fuel poll_interval n r.1
    (rest.1, r.2 :: rest.2)

end BridgeRelayer

/-- The environment variables read by `main` via `os.getenv` (required ones
only; `START_BLOCK` has a default and is not validated).  `none` models an
unset variable. -/
structure EnvVars where
  SOURCE_CHAIN_RPC_URL : Option String
  DESTINATION_CHAIN_RPC_URL : Option String
  SOURCE_BRIDGE_CONTRACT_ADDRESS : Option String
  DESTINATION_BRIDGE_CONTRACT_ADDRESS : Option String
  RELAYER_PRIVATE_KEY : Option String
deriving DecidableEq, Repr

/-- Python truthiness test `if not value` on an `os.getenv` result: true for
an unset variable (`None`) and for the empty string. -/
def falsy : Option String → Bool
  | none => true
  | some s => s == ""

/-- The `required_vars` dict of `main`, in its insertion (= iteration)
order. -/
def required_vars (env : EnvVars) : List (String × Option String) :=
  [("SOURCE_CHAIN_RPC_URL", env.SOURCE_CHAIN_RPC_URL),
   ("DESTINATION_CHAIN_RPC_URL", env.DESTINATION_CHAIN_RPC_URL),
   ("SOURCE_BRIDGE_CONTRACT_ADDRESS", env.SOURCE_BRIDGE_CONTRACT_ADDRESS),
   ("DESTINATION_BRIDGE_CONTRACT_ADDRESS", env.DESTINATION_BRIDGE_CONTRACT_ADDRESS),
   ("RELAYER_PRIVATE_KEY", env.RELAYER_PRIVATE_KEY)]

/-- Result of the validation loop of `main`.  On the first falsy required
variable, `main` calls `logging.error` naming that variable and executes a
plain `return`; the script then falls off the end of `main`, so the process
exit status is 0 (the script contains no `sys.exit` call).  `exitCode`
records that status. -/
inductive ConfigCheck where
  | abort (missingVar : String) (exitCode : Nat)
  | proceed
deriving DecidableEq, Repr

/-- The configuration-validation loop of `main`: iterate `required_vars` in
order and abort on the first falsy value. -/
def validate_config (env : EnvVars) : ConfigCheck :=
  match (required_vars env).find? (fun p => falsy p.2) with
  | some p => ConfigCheck.abort p.1 0
  | none => ConfigCheck.proceed

/-! Concrete fixtures used to evaluate the embedding at the spec's scenario
inputs (head 100, margin 5, watermark 90, window [91, 95]). -/

/-- Args of a transfer with nonce 7. -/
def a7 : EventArgs := ⟨7, "0xaaa", 100⟩

/-- Args of a transfer with nonce 8. -/
def a8 : EventArgs := ⟨8, "0xbbb", 200⟩

/-- A `TokensLocked` event at height 93. -/
def e93 : LogReceipt := ⟨93, 0, some a7⟩

/-- A `TokensLocked` event at height 94. -/
def e94 : LogReceipt := ⟨94, 0, some a8⟩

/-- Relayer state with watermark 90 and no processed nonces. -/
def st90 : RelayerState := ⟨[], 90⟩

/-- Destination simulation that raises on nonce 7 (confirmation cannot be
obtained) and completes for every other nonce. -/
def txSimFail7 : BridgeRelayer.TxSim := fun a =>
  if a.nonce == 7 then Except.error "confirmation timed out" else Except.ok ()

/-- Destination simulation that always completes. -/
def txSimOk : BridgeRelayer.TxSim := fun _ => Except.ok ()

/-- Source node returning the single event `e93` for every query. -/
def fetchE93 : Nat → Int → Int → FetchOutcome := fun _ _ _ => FetchOutcome.ok [e93]

/-- Source node returning the events `e93` and `e94` for every query. -/
def fetchE9394 : Nat → Int → Int → FetchOutcome := fun _ _ _ => FetchOutcome.ok [e93, e94]

/-- Source node with no events in any range. -/
def fetchEmptyOk : Nat → Int → Int → FetchOutcome := fun _ _ _ => FetchOutcome.ok []

/-- Source node whose every query fails fatally (malformed response). -/
def fetchFatal : Nat → Int → Int → FetchOutcome := fun _ _ _ =>
  FetchOutcome.fatalErr "malformed response"

/-- Source node whose every query fails transiently (rate limit). -/
def fetchTransient : Nat → Int → Int → FetchOutcome := fun _ _ _ =>
  FetchOutcome.transientErr "rate limited"

/-- Cycle world for scenario C-like runs: head 100, one event at 93 whose
destination outcome cannot be confirmed. -/
def envC1 : BridgeRelayer.CycleEnv := ⟨Except.ok 100, fetchE93, txSimFail7⟩

/-- Cycle world with head 100, events at 93 and 94, the one at 93 failing. -/
def envC2 : BridgeRelayer.CycleEnv := ⟨Except.ok 100, fetchE9394, txSimFail7⟩

/-- Scenario A world: head 100, no events anywhere, destination healthy. -/
def envScenA : BridgeRelayer.CycleEnv := ⟨Except.ok 100, fetchEmptyOk, txSimOk⟩

/-- Worlds for a two-cycle run whose first cycle hits an unexpected (fatal
class) error in `get_latest_block` and whose second cycle is healthy. -/
def envsFatalThenOk : Nat → BridgeRelayer.CycleEnv := fun k =>
  match k with
  | 0 => ⟨Except.error (BridgeRelayer.LoopErr.other "fatal decode error"), fetchEmptyOk, txSimOk⟩
  | _+1 => envScenA

/-- Environment with every required configuration variable unset. -/
def envAllUnset : EnvVars := ⟨none, none, none, none, none⟩

/-! Helper lemmas shared by the claim theorems. -/

namespace BridgeRelayer

/-- When the `try` body of `process_event` raises, the `except` clause returns
normally with the state unchanged and no completed submission. -/
theorem process_event_of_body_error (txSim : TxSim) (st : RelayerState)
    (e : LogReceipt) (msg : String)
    (h : process_event_body txSim st e = Except.error msg) :
    process_event txSim st e = (st, []) := by
  unfold process_event
  rw [h]

/-- An event whose processing raises contributes nothing to the ACTIONING
fold: the remaining events are processed from the same state. -/
theorem action_events_cons_of_error (txSim : TxSim) (st : RelayerState)
    (e : LogReceipt) (msg : String) (rest : List LogReceipt)
    (h : process_event_body txSim st e = Except.error msg) :
    action_events txSim st (e :: rest) = action_events txSim st rest := by
  have h1 := process_event_of_body_error txSim st e msg h
  unfold action_events
  rw [List.foldl_cons]
  simp [h1]

/-- Unfolding of `run_cycle` on the path where the head is read, the window is
non-empty and the scan finishes. -/
theorem run_cycle_eq_advanced (env : CycleEnv) (fuel : Nat) (poll latest : Int)
    (st : RelayerState) (events : List LogReceipt)
    (hl : env.latest_block = Except.ok latest)
    (hw : latest - reorg_safety_margin > st.last_processed_block)
    (hs : (EventScanner.scan_blocks env.fetch (st.last_processed_block + 1)
      (latest - reorg_safety_margin) EventScanner.max_range_default fuel).1 = some events) :
    run_cycle env fuel poll st =
      ({ (action_events env.txSim st (order_events events)).1 with
          last_processed_block := latest - reorg_safety_margin },
        CycleResult.advanced (latest - reorg_safety_margin) (order_events events)
          (action_events env.txSim st (order_events events)).2 poll) := by
  unfold run_cycle
  rw [hl]
  simp only [if_pos hw, hs]

/-- Unfolding of `run_cycle` on the no-new-blocks path. -/
theorem run_cycle_eq_noNewBlocks (env : CycleEnv) (fuel : Nat) (poll latest : Int)
    (st : RelayerState)
    (hl : env.latest_block = Except.ok latest)
    (hw : ¬ latest - reorg_safety_margin > st.last_processed_block) :
    run_cycle env fuel poll st = (st, CycleResult.noNewBlocks poll) := by
  unfold run_cycle
  rw [hl]
  simp only [if_neg hw]

/-- The `while True` loop runs every iteration: no cycle outcome shortens the
run. -/
theorem run_loop_length (fuel : Nat) (poll : Int) :
    ∀ (n : Nat) (envs : Nat → CycleEnv) (st : RelayerState),
      ((run_loop envs fuel poll n st).2).length = n := by
  intro n
  induction n with
  | zero => intro envs st; rfl
  | succ m ih =>
    intro envs st
    simp only [run_loop, List.length_cons, ih]

/-- Inversion: a cycle that reports `advanced` read head `latest`, had a
non-empty window ending at `latest` minus the margin, and processed the
sorted scan result. -/
theorem run_cycle_advanced_inv (env : CycleEnv) (fuel : Nat) (poll latest : Int)
    (st : RelayerState) (toB : Int) (ordered : List LogReceipt)
    (calls : List SubmitCall) (s : Int)
    (hl : env.latest_block = Except.ok latest)
    (h : (run_cycle env fuel poll st).2 = CycleResult.advanced toB ordered calls s) :
    toB = latest - reorg_safety_margin ∧
    latest - reorg_safety_margin > st.last_processed_block ∧
    ∃ events, (EventScanner.scan_blocks env.fetch (st.last_processed_block + 1)
        (latest - reorg_safety_margin) EventScanner.max_range_default fuel).1 = some events ∧
      ordered = order_events events := by
  unfold run_cycle at h
  rw [hl] at h
  by_cases hw : latest - reorg_safety_margin > st.last_processed_block
  · simp only [if_pos hw] at h
    cases hscan : (EventScanner.scan_blocks env.fetch (st.last_processed_block + 1)
        (latest - reorg_safety_margin) EventScanner.max_range_default fuel).1 with
    | none => rw [hscan] at h; cases h
    | some events =>
      rw [hscan] at h
      simp only at h
      cases h
      exact ⟨rfl, hw, events, rfl, rfl⟩
  · simp only [if_neg hw] at h
    cases h

end BridgeRelayer

namespace EventScanner

/-- Every `get_logs` query issued by the scan loop stays inside
`[start, to_block]`: chunk lower bounds never go below the loop's starting
height and chunk upper bounds never exceed `to_block`. -/
theorem scan_loop_queries_bounded (fetch : Nat → Int → Int → FetchOutcome)
    (to_block max_range : Int) (hmax : 1 ≤ max_range) :
    ∀ (fuel k : Nat) (start : Int) (acc : List LogReceipt),
      ∀ q ∈ (scan_loop fetch to_block max_range fuel k start acc).2,
        start ≤ q.lo ∧ q.hi ≤ to_block := by
  intro fuel
  induction fuel with
  | zero =>
    intro k start acc q hq
    simp [scan_loop] at hq
  | succ n ih =>
    intro k start acc q hq
    by_cases hst : start > to_block
    · simp [scan_loop, hst] at hq
    · have hle : start ≤ to_block := by omega
      have hstop : start ≤ min (start + max_range - 1) to_block :=
        le_min (by omega) hle
      simp only [scan_loop, if_neg hst] at hq
      cases hf : fetch k start (min (start + max_range - 1) to_block) with
      | ok logs =>
        rw [hf] at hq
        simp only [List.mem_cons] at hq
        rcases hq with hq | hq
        · subst hq
          exact ⟨le_refl _, min_le_right _ _⟩
        · have := ih (k+1) (min (start + max_range - 1) to_block + 1) (acc ++ logs) q hq
          exact ⟨by omega, this.2⟩
      | transientErr m =>
        rw [hf] at hq
        simp only [List.mem_cons] at hq
        rcases hq with hq | hq
        · subst hq
          exact ⟨le_refl _, min_le_right _ _⟩
        · exact ih (k+1) start acc q hq
      | fatalErr m =>
        rw [hf] at hq
        simp only [List.mem_cons] at hq
        rcases hq with hq | hq
        · subst hq
          exact ⟨le_refl _, min_le_right _ _⟩
        · exact ih (k+1) start acc q hq

/-- If the source node only ever reports events inside the queried range,
every event the scan loop returns is at a height of at most `to_block`. -/
theorem scan_loop_events_bounded (fetch : Nat → Int → Int → FetchOutcome)
    (to_block max_range : Int)
    (hfetch : ∀ k lo hi logs, fetch k lo hi = FetchOutcome.ok logs →
      ∀ e ∈ logs, lo ≤ e.blockNumber ∧ e.blockNumber ≤ hi) :
    ∀ (fuel k : Nat) (start : Int) (acc : List LogReceipt)
      (events : List LogReceipt),
      (∀ e ∈ acc, e.blockNumber ≤ to_block) →
      (scan_loop fetch to_block max_range fuel k start acc).1 = some events →
      ∀ e ∈ events, e.blockNumber ≤ to_block := by
  intro fuel
  induction fuel with
  | zero =>
    intro k start acc events hacc hres
    by_cases hst : start > to_block
    · simp only [scan_loop, if_pos hst] at hres
      cases hres
      exact hacc
    · simp [scan_loop, hst] at hres
  | succ n ih =>
    intro k start acc events hacc hres
    by_cases hst : start > to_block
    · simp only [scan_loop, if_pos hst] at hres
      cases hres
      exact hacc
    · simp only [scan_loop, if_neg hst] at hres
      cases hf : fetch k start (min (start + max_range - 1) to_block) with
      | ok logs =>
        rw [hf] at hres
        refine ih (k+1) _ (acc ++ logs) events ?_ hres
        intro e he
        rcases List.mem_append.mp he with he | he
        · exact hacc e he
        · have := (hfetch k start (min (start + max_range - 1) to_block) logs hf e he).2
          have hm : min (start + max_range - 1) to_block ≤ to_block := min_le_right _ _
          omega
      | transientErr m =>
        rw [hf] at hres
        exact ih (k+1) start acc events hacc hres
      | fatalErr m =>
        rw [hf] at hres
        exact ih (k+1) start acc events hacc hres

end EventScanner

/-! Claim theorems. -/

open BridgeRelayer EventScanner

/-- C9: for all window bounds `a`, `b` with `a > b`, `scan_blocks` returns an
empty list of events (and no error — the `(some [], [])` value is the normal
early return, not an exception). -/
theorem scan_empty_window_returns_empty (fetch : Nat → Int → Int → FetchOutcome)
    (a b max_range : Int) (fuel : Nat) (h : a > b) :
    scan_blocks fetch a b max_range fuel = (some [], []) := by
  unfold scan_blocks
  rw [if_pos h]

/-- Witness for C9 at the concrete empty window [96, 95]. -/
theorem scan_empty_window_returns_empty_witness :
    scan_blocks fetchEmptyOk 96 95 1000 0 = (some [], []) :=
  scan_empty_window_returns_empty fetchEmptyOk 96 95 1000 0 (by decide)

/-- C8: for an event whose nonce is already in `processed_nonces`,
`process_event` performs no destination-chain submission and returns the
state unchanged (the idempotent skip path, logged at warning level). -/
theorem actioning_skips_processed_nonce (txSim : TxSim) (st : RelayerState)
    (e : LogReceipt) (a : EventArgs)
    (hargs : e.args = some a) (hmem : a.nonce ∈ st.processed_nonces) :
    process_event txSim st e = (st, []) := by
  unfold process_event process_event_body
  rw [hargs]
  simp [hmem]

/-- Witness for C8: nonce 7 already processed, event `e93` is skipped with no
submission and no state change. -/
theorem actioning_skips_processed_nonce_witness :
    process_event txSimOk ⟨[7], 90⟩ e93 = (⟨[7], 90⟩, []) :=
  actioning_skips_processed_nonce txSimOk ⟨[7], 90⟩ e93 a7 rfl (by decide)

/-- C10: any failure inside `process_event` is caught by its bare
`except` clause: the call returns normally with the state unchanged and no
completed submission, the event's nonce stays out of `processed_nonces`, and
the ACTIONING fold continues with the remaining events as if the failed event
were absent. -/
theorem process_event_never_propagates (txSim : TxSim) (st : RelayerState)
    (e : LogReceipt) (msg : String)
    (hfail : process_event_body txSim st e = Except.error msg) :
    process_event txSim st e = (st, []) ∧
    (∀ a, e.args = some a → a.nonce ∉ st.processed_nonces →
      a.nonce ∉ (process_event txSim st e).1.processed_nonces) ∧
    (∀ rest, action_events txSim st (e :: rest) = action_events txSim st rest) := by
  have h1 := process_event_of_body_error txSim st e msg hfail
  refine ⟨h1, ?_, ?_⟩
  · intro a _ hnm
    rw [h1]
    exact hnm
  · intro rest
    exact action_events_cons_of_error txSim st e msg rest hfail

/-- Witness for C10: the destination simulation raises on nonce 7; the event
at height 93 is dropped and the cycle continues. -/
theorem process_event_never_propagates_witness :
    process_event txSimFail7 st90 e93 = (st90, []) ∧
    (∀ a, e93.args = some a → a.nonce ∉ st90.processed_nonces →
      a.nonce ∉ (process_event txSimFail7 st90 e93).1.processed_nonces) ∧
    (∀ rest, action_events txSimFail7 st90 (e93 :: rest) =
      action_events txSimFail7 st90 rest) :=
  process_event_never_propagates txSimFail7 st90 e93 "confirmation timed out" rfl

/-- C5 counterexample: with every required configuration variable unset,
`main` logs which variable is missing and returns, and the process exit
status recorded for that path is 0 — not the non-zero status the claim
requires (the script never calls `sys.exit`). -/
theorem missing_config_exit_status_zero :
    validate_config envAllUnset = ConfigCheck.abort "SOURCE_CHAIN_RPC_URL" 0 ∧
    ∀ v c, validate_config envAllUnset = ConfigCheck.abort v c → c = 0 := by
  refine ⟨rfl, ?_⟩
  intro v c h
  have h2 : ConfigCheck.abort "SOURCE_CHAIN_RPC_URL" 0 = ConfigCheck.abort v c := by
    rw [← h]
    rfl
  injection h2 with h3 h4
  exact h4.symm

/-- C5 amended: if any required configuration value is absent (or empty),
`main` logs a descriptive message naming the first such variable and returns
without initializing anything — but the process exit status is 0, because
`main` plain-returns and the script contains no `sys.exit`. -/
theorem missing_config_logs_and_returns (env : EnvVars) (name : String)
    (val : Option String)
    (h : (required_vars env).find? (fun p => falsy p.2) = some (name, val)) :
    validate_config env = ConfigCheck.abort name 0 := by
  unfold validate_config
  rw [h]

/-- Witness for the amended C5 at the all-unset environment. -/
theorem missing_config_logs_and_returns_witness :
    validate_config envAllUnset = ConfigCheck.abort "SOURCE_CHAIN_RPC_URL" 0 :=
  missing_config_logs_and_returns envAllUnset "SOURCE_CHAIN_RPC_URL" none (by decide)

/-- C1 counterexample: head 100, window [91, 95], one event at height 93
whose destination simulation raises.  The cycle still sets the watermark to
95 although nonce 7 was never recorded in `processed_nonces` and no terminal
outcome exists in the state — the watermark advances past an event left in
limbo. -/
theorem watermark_advances_past_unrecorded_event :
    st90.last_processed_block = 90 ∧
    (run_cycle envC1 1 15 st90).2 = CycleResult.advanced 95 [e93] [] 15 ∧
    (run_cycle envC1 1 15 st90).1.last_processed_block = 95 ∧
    e93.args = some a7 ∧
    7 ∉ (run_cycle envC1 1 15 st90).1.processed_nonces := by
  refine ⟨rfl, rfl, rfl, rfl, ?_⟩
  decide

/-- C1 amended: on a cycle whose head read succeeds, whose window is
non-empty and whose scan finishes, the watermark is set to `to_height`
unconditionally at the end of the event loop — regardless of whether every
event reached a recorded terminal outcome.  Per-event failures are swallowed
by `process_event`, so the advance does not wait for (or check) any recorded
outcome. -/
theorem watermark_set_unconditionally (env : CycleEnv) (fuel : Nat)
    (poll latest : Int) (st : RelayerState) (events : List LogReceipt)
    (hl : env.latest_block = Except.ok latest)
    (hw : latest - reorg_safety_margin > st.last_processed_block)
    (hs : (scan_blocks env.fetch (st.last_processed_block + 1)
      (latest - reorg_safety_margin) max_range_default fuel).1 = some events) :
    (run_cycle env fuel poll st).1.last_processed_block =
      latest - reorg_safety_margin ∧
    (run_cycle env fuel poll st).2 =
      CycleResult.advanced (latest - reorg_safety_margin) (order_events events)
        (action_events env.txSim st (order_events events)).2 poll := by
  rw [run_cycle_eq_advanced env fuel poll latest st events hl hw hs]
  exact ⟨rfl, rfl⟩

/-- Witness for the amended C1 at the concrete failing-event cycle. -/
theorem watermark_set_unconditionally_witness :
    (run_cycle envC1 1 15 st90).1.last_processed_block =
      (100 : Int) - reorg_safety_margin ∧
    (run_cycle envC1 1 15 st90).2 =
      CycleResult.advanced ((100 : Int) - reorg_safety_margin) (order_events [e93])
        (action_events envC1.txSim st90 (order_events [e93])).2 15 :=
  watermark_set_unconditionally envC1 1 15 100 st90 [e93] rfl (by decide) (by decide)

/-- C2 counterexample: window [91, 95] with events at heights 93 and 94; the
destination outcome for the event at 93 cannot be confirmed.  Its nonce 7 is
indeed not recorded, but ACTIONING is not aborted (the event at 94 is still
submitted in the same cycle), the watermark advances to 95 anyway, and the
next cycle finds no new blocks — the failed event is never re-scanned or
resubmitted. -/
theorem unconfirmed_outcome_does_not_abort_cycle :
    run_loop (fun _ => envC2) 1 15 2 st90 =
      (⟨[8], 95⟩,
        [CycleResult.advanced 95 [e93, e94] [⟨"0xbbb", 200, 8⟩] 15,
         CycleResult.noNewBlocks 15]) ∧
    7 ∉ (run_loop (fun _ => envC2) 1 15 2 st90).1.processed_nonces ∧
    ¬ (run_loop (fun _ => envC2) 1 15 2 st90).1.last_processed_block ≤ 93 := by
  refine ⟨rfl, ?_, ?_⟩ <;> decide

/-- C2 amended: for an event whose destination outcome cannot be confirmed
(the simulation raises), the engine does not add the event's nonce to
`processed_nonces` — but it does not abort ACTIONING: the remaining events
are processed from the same state, the cycle still advances the watermark to
`to_height` when its scan finished, and a later cycle whose window is empty
re-scans nothing, so the event is never resubmitted. -/
theorem unconfirmed_outcome_skipped_watermark_advances (txSim : TxSim)
    (st : RelayerState) (e : LogReceipt) (msg : String) (rest : List LogReceipt)
    (hfail : process_event_body txSim st e = Except.error msg) :
    process_event txSim st e = (st, []) ∧
    action_events txSim st (e :: rest) = action_events txSim st rest ∧
    (∀ env fuel poll latest events, env.latest_block = Except.ok latest →
      latest - reorg_safety_margin > st.last_processed_block →
      (scan_blocks env.fetch (st.last_processed_block + 1)
        (latest - reorg_safety_margin) max_range_default fuel).1 = some events →
      (run_cycle env fuel poll st).1.last_processed_block =
        latest - reorg_safety_margin) ∧
    (∀ env2 fuel poll latest2 st2, env2.latest_block = Except.ok latest2 →
      ¬ latest2 - reorg_safety_margin > st2.last_processed_block →
      run_cycle env2 fuel poll st2 = (st2, CycleResult.noNewBlocks poll)) := by
  refine ⟨process_event_of_body_error txSim st e msg hfail,
    action_events_cons_of_error txSim st e msg rest hfail, ?_, ?_⟩
  · intro env fuel poll latest events hl hw hs
    rw [run_cycle_eq_advanced env fuel poll latest st events hl hw hs]
  · intro env2 fuel poll latest2 st2 hl hw
    exact run_cycle_eq_noNewBlocks env2 fuel poll latest2 st2 hl hw

/-- Witness for the amended C2 at the failing event `e93` with `e94` next. -/
theorem unconfirmed_outcome_skipped_watermark_advances_witness :
    process_event txSimFail7 st90 e93 = (st90, []) ∧
    action_events txSimFail7 st90 (e93 :: [e94]) =
      action_events txSimFail7 st90 [e94] ∧
    (∀ env fuel poll latest events, env.latest_block = Except.ok latest →
      latest - reorg_safety_margin > st90.last_processed_block →
      (scan_blocks env.fetch (st90.last_processed_block + 1)
        (latest - reorg_safety_margin) max_range_default fuel).1 = some events →
      (run_cycle env fuel poll st90).1.last_processed_block =
        latest - reorg_safety_margin) ∧
    (∀ env2 fuel poll latest2 st2, env2.latest_block = Except.ok latest2 →
      ¬ latest2 - reorg_safety_margin > st2.last_processed_block →
      run_cycle env2 fuel poll st2 = (st2, CycleResult.noNewBlocks poll)) :=
  unconfirmed_outcome_skipped_watermark_advances txSimFail7 st90 e93
    "confirmation timed out" [e94] rfl

/-- C3 counterexample: a fetch failure classified as fatal (malformed
response) is not propagated to the caller: the scan loop re-queries the very
same chunk [91, 95] at every iteration, sleeping 10 seconds each time, and
never returns within any amount of fuel spent. -/
theorem fatal_scan_failure_retried_not_propagated :
    (scan_loop fetchFatal 95 1000 3 0 91 []).1 = none ∧
    (scan_loop fetchFatal 95 1000 3 0 91 []).2 =
      [⟨91, 95, 10⟩, ⟨91, 95, 10⟩, ⟨91, 95, 10⟩] := by
  refine ⟨?_, ?_⟩ <;> decide

/-- C3 amended: on any fetch failure — transient or fatal — `scan_blocks`
retries the same sub-range after a fixed 10-second sleep, indefinitely: with
a node that never answers successfully the loop issues one identical query
per iteration and never terminates or propagates, for any amount of fuel. -/
theorem any_scan_failure_retries_same_chunk (fetch : Nat → Int → Int → FetchOutcome)
    (to_block max_range : Int)
    (hfail : ∀ k lo hi logs, fetch k lo hi ≠ FetchOutcome.ok logs) :
    ∀ (fuel k : Nat) (start : Int) (acc : List LogReceipt), start ≤ to_block →
      (scan_loop fetch to_block max_range fuel k start acc).1 = none ∧
      ((scan_loop fetch to_block max_range fuel k start acc).2).length = fuel ∧
      ∀ q ∈ (scan_loop fetch to_block max_range fuel k start acc).2,
        q.lo = start ∧ q.hi = min (start + max_range - 1) to_block ∧
        q.slept = 10 := by
  intro fuel
  induction fuel with
  | zero =>
    intro k start acc hst
    refine ⟨?_, rfl, ?_⟩
    · simp [scan_loop]
      omega
    · intro q hq
      simp [scan_loop] at hq
  | succ n ih =>
    intro k start acc hst
    have hst2 : ¬ start > to_block := by omega
    cases hf : fetch k start (min (start + max_range - 1) to_block) with
    | ok logs => exact absurd hf (hfail k start _ logs)
    | transientErr m =>
      have hrec := ih (k+1) start acc hst
      refine ⟨?_, ?_, ?_⟩
      · simp only [scan_loop, if_neg hst2, hf]
        exact hrec.1
      · simp only [scan_loop, if_neg hst2, hf, List.length_cons, hrec.2.1]
      · simp only [scan_loop, if_neg hst2, hf]
        intro q hq
        rcases List.mem_cons.mp hq with hq | hq
        · subst hq; exact ⟨rfl, rfl, rfl⟩
        · exact hrec.2.2 q hq
    | fatalErr m =>
      have hrec := ih (k+1) start acc hst
      refine ⟨?_, ?_, ?_⟩
      · simp only [scan_loop, if_neg hst2, hf]
        exact hrec.1
      · simp only [scan_loop, if_neg hst2, hf, List.length_cons, hrec.2.1]
      · simp only [scan_loop, if_neg hst2, hf]
        intro q hq
        rcases List.mem_cons.mp hq with hq | hq
        · subst hq; exact ⟨rfl, rfl, rfl⟩
        · exact hrec.2.2 q hq

/-- Witness for the amended C3 on an always-rate-limited node over the window
[91, 95] with two units of fuel. -/
theorem any_scan_failure_retries_same_chunk_witness :
    (scan_loop fetchTransient 95 1000 2 0 91 []).1 = none ∧
    ((scan_loop fetchTransient 95 1000 2 0 91 []).2).length = 2 ∧
    ∀ q ∈ (scan_loop fetchTransient 95 1000 2 0 91 []).2,
      q.lo = 91 ∧ q.hi = min ((91 : Int) + 1000 - 1) 95 ∧ q.slept = 10 :=
  any_scan_failure_retries_same_chunk fetchTransient 95 1000
    (fun k lo hi logs h => by simp [fetchTransient] at h) 2 0 91 [] (by decide)

/-- C4 counterexample: an unexpected (fatal-class) error in cycle 0 is logged
at CRITICAL (level 50) and followed by a 30-second sleep — and then the loop
keeps running: cycle 1 executes normally and advances the watermark to 95.
The FAULTED state is not terminal; nothing halts the loop. -/
theorem fatal_error_does_not_halt_loop :
    run_loop envsFatalThenOk 1 15 2 st90 =
      (⟨[], 95⟩, [CycleResult.unexpectedBackoff 30,
        CycleResult.advanced 95 [] [] 15]) ∧
    logLevel (CycleResult.unexpectedBackoff 30) = some 50 := by
  refine ⟨?_, rfl⟩
  decide

/-- C4 amended: a non-`ConnectionError` exception reaching the main loop is
logged at the highest severity (CRITICAL, level 50) but does not halt the
loop: the cycle ends in a 30-second backoff and the loop runs every
subsequent iteration; a `ConnectionError` instead yields an ERROR-level log
and a 60-second backoff.  No error stops the process. -/
theorem fatal_error_critical_backoff_loop_continues (env : CycleEnv)
    (fuel : Nat) (poll : Int) (st : RelayerState) (msg : String)
    (h : env.latest_block = Except.error (LoopErr.other msg)) :
    run_cycle env fuel poll st = (st, CycleResult.unexpectedBackoff 30) ∧
    logLevel (run_cycle env fuel poll st).2 = some 50 ∧
    (∀ (envs : Nat → CycleEnv) (n : Nat) (st0 : RelayerState),
      ((run_loop envs fuel poll n st0).2).length = n) ∧
    (∀ (env2 : CycleEnv) (cmsg : String) (st2 : RelayerState),
      env2.latest_block = Except.error (LoopErr.conn cmsg) →
      run_cycle env2 fuel poll st2 = (st2, CycleResult.connBackoff 60)) := by
  have h1 : run_cycle env fuel poll st = (st, CycleResult.unexpectedBackoff 30) := by
    unfold run_cycle
    rw [h]
  refine ⟨h1, ?_, ?_, ?_⟩
  · rw [h1]
    rfl
  · intro envs n st0
    exact run_loop_length fuel poll n envs st0
  · intro env2 cmsg st2 h2
    unfold run_cycle
    rw [h2]

/-- Witness for the amended C4 at the concrete fatal-then-healthy worlds. -/
theorem fatal_error_critical_backoff_loop_continues_witness :
    run_cycle (envsFatalThenOk 0) 1 15 st90 =
      (st90, CycleResult.unexpectedBackoff 30) ∧
    logLevel (run_cycle (envsFatalThenOk 0) 1 15 st90).2 = some 50 ∧
    (∀ (envs : Nat → CycleEnv) (n : Nat) (st0 : RelayerState),
      ((run_loop envs 1 15 n st0).2).length = n) ∧
    (∀ (env2 : CycleEnv) (cmsg : String) (st2 : RelayerState),
      env2.latest_block = Except.error (LoopErr.conn cmsg) →
      run_cycle env2 1 15 st2 = (st2, CycleResult.connBackoff 60)) :=
  fatal_error_critical_backoff_loop_continues (envsFatalThenOk 0) 1 15 st90
    "fatal decode error" rfl

/-- C6: with head `latest` and margin 5, every `get_logs` query of the
cycle's scan stays inside the window `[last_processed_block + 1, latest - 5]`;
consequently (for a node that only reports events inside the queried range)
every event processed in a cycle that advanced has height at most
`latest - 5`.  Concretely (scenario A): head 100, margin 5, watermark 90
gives the window [91, 95], and with no events there the watermark advances to
95 with no destination submissions. -/
theorem scan_window_respects_reorg_margin (env : CycleEnv) (fuel : Nat)
    (poll latest : Int) (st : RelayerState)
    (hl : env.latest_block = Except.ok latest)
    (hfetch : ∀ k lo hi logs, env.fetch k lo hi = FetchOutcome.ok logs →
      ∀ e ∈ logs, lo ≤ e.blockNumber ∧ e.blockNumber ≤ hi) :
    (∀ q ∈ (scan_blocks env.fetch (st.last_processed_block + 1)
        (latest - reorg_safety_margin) max_range_default fuel).2,
      st.last_processed_block + 1 ≤ q.lo ∧
        q.hi ≤ latest - reorg_safety_margin) ∧
    (∀ toB ordered calls s,
      (run_cycle env fuel poll st).2 = CycleResult.advanced toB ordered calls s →
      toB = latest - reorg_safety_margin ∧
      ∀ e ∈ ordered, e.blockNumber ≤ latest - reorg_safety_margin) ∧
    run_cycle envScenA 1 15 st90 =
      (⟨[], 95⟩, CycleResult.advanced 95 [] [] 15) ∧
    (scan_blocks fetchEmptyOk 91 95 max_range_default 1).2 = [⟨91, 95, 0⟩] := by
  refine ⟨?_, ?_, by decide, by decide⟩
  · intro q hq
    unfold scan_blocks at hq
    by_cases hw : st.last_processed_block + 1 > latest - reorg_safety_margin
    · rw [if_pos hw] at hq
      simp at hq
    · rw [if_neg hw] at hq
      exact scan_loop_queries_bounded env.fetch _ max_range_default (by decide)
        fuel 0 _ [] q hq
  · intro toB ordered calls s h
    obtain ⟨htoB, hw, events, hscan, hord⟩ :=
      run_cycle_advanced_inv env fuel poll latest st toB ordered calls s hl h
    refine ⟨htoB, ?_⟩
    intro e he
    have he2 : e ∈ events := by
      rw [hord] at he
      unfold order_events at he
      exact (List.mem_insertionSort eventLe).1 he
    unfold scan_blocks at hscan
    by_cases hw2 : st.last_processed_block + 1 > latest - reorg_safety_margin
    · rw [if_pos hw2] at hscan
      simp only at hscan
      cases hscan
      cases he2
    · rw [if_neg hw2] at hscan
      exact scan_loop_events_bounded env.fetch _ max_range_default hfetch
        fuel 0 _ [] events (by intro x hx; cases hx) hscan e he2

/-- Witness for C6 at scenario A (head 100, watermark 90, no events). -/
theorem scan_window_respects_reorg_margin_witness :
    (∀ q ∈ (scan_blocks envScenA.fetch (st90.last_processed_block + 1)
        ((100 : Int) - reorg_safety_margin) max_range_default 1).2,
      st90.last_processed_block + 1 ≤ q.lo ∧
        q.hi ≤ (100 : Int) - reorg_safety_margin) ∧
    (∀ toB ordered calls s,
      (run_cycle envScenA 1 15 st90).2 = CycleResult.advanced toB ordered calls s →
      toB = (100 : Int) - reorg_safety_margin ∧
      ∀ e ∈ ordered, e.blockNumber ≤ (100 : Int) - reorg_safety_margin) ∧
    run_cycle envScenA 1 15 st90 =
      (⟨[], 95⟩, CycleResult.advanced 95 [] [] 15) ∧
    (scan_blocks fetchEmptyOk 91 95 max_range_default 1).2 = [⟨91, 95, 0⟩] :=
  scan_window_respects_reorg_margin envScenA 1 15 100 st90 rfl
    (by
      intro k lo hi logs h e he
      have h2 : FetchOutcome.ok [] = FetchOutcome.ok logs := h
      injection h2 with h3
      rw [← h3] at he
      cases he)

/-- C7: the list handed to ACTIONING after the ORDERING step is the scan
result sorted by `(blockNumber, logIndex)`; when the keys are pairwise
distinct (the source guarantees `logIndex` is unique within a height) the
sorted list is strictly ascending in the lexicographic key order, and it is a
permutation of the scan result — the engine injects no events (hence no
duplicate dedup keys) of its own. -/
theorem ordering_strictly_ascending_no_injected_duplicates
    (events : List LogReceipt)
    (hdist : events.Pairwise (fun a b =>
      ¬ (a.blockNumber = b.blockNumber ∧ a.logIndex = b.logIndex))) :
    List.Pairwise eventLt (order_events events) ∧
    List.Perm (order_events events) events := by
  have hperm : List.Perm (order_events events) events :=
    List.perm_insertionSort eventLe events
  refine ⟨?_, hperm⟩
  have hsorted : List.Pairwise eventLe (order_events events) :=
    List.sorted_insertionSort eventLe events
  have hsymm : ∀ {x y : LogReceipt},
      ¬ (x.blockNumber = y.blockNumber ∧ x.logIndex = y.logIndex) →
      ¬ (y.blockNumber = x.blockNumber ∧ y.logIndex = x.logIndex) := by
    intro x y h hc
    exact h ⟨hc.1.symm, hc.2.symm⟩
  have hdist2 := (hperm.pairwise_iff hsymm).2 hdist
  have hand := hsorted.and hdist2
  apply hand.imp
  intro a b h
  rcases h with ⟨h1, h2⟩
  unfold eventLe at h1
  unfold eventLt
  omega

/-- Witness for C7 on the two-event scan result [e94, e93]. -/
theorem ordering_strictly_ascending_witness :
    List.Pairwise eventLt (order_events [e94, e93]) ∧
    List.Perm (order_events [e94, e93]) [e94, e93] :=
  ordering_strictly_ascending_no_injected_duplicates [e94, e93] (by decide)

end Script

